import Mathlib

/-!
Verification development for the DNS codec / zone-store core of the
`trust-dns` repository.

The first part embeds `src/client/src/rr/rdata/a.rs` (the A record codec:
`read`, `emit`, `parse`) over an explicit byte-cursor model of the
`BinDecoder` / `BinEncoder` interface described in the specification.
The second part models the zone lexer, zone parser and authority store,
which are exercised by `src/server/tests/txt_tests.rs` but whose source is
not part of this repository snapshot; those definitions are modelled from
the specification and checked against the concrete expectations of the
test file.
-/

namespace TrustDns

/-- An IPv4 address as four octets (`std::net::Ipv4Addr` in the source).
Each field is the numeric value of one `u8`. -/
structure Ipv4Addr where
  o0 : Nat
  o1 : Nat
  o2 : Nat
  o3 : Nat
deriving DecidableEq, Repr

/-- Well-formedness of an `Ipv4Addr`: every octet fits in a `u8`. -/
def Ipv4Addr.valid (ip : Ipv4Addr) : Prop :=
  ip.o0 < 256 ∧ ip.o1 < 256 ∧ ip.o2 < 256 ∧ ip.o3 < 256

instance (ip : Ipv4Addr) : Decidable ip.valid := by
  unfold Ipv4Addr.valid; infer_instance

/-- Wire-decode errors of the binary cursor.  The spec's `Truncated`
condition is raised by `pop` when the buffer is exhausted. -/
inductive DecodeError where
  | truncated
deriving DecidableEq, Repr

/-- Wire-encode errors.  Emitting single bytes never fails in this core,
so the type is empty; it keeps `emit`'s fallible signature from the
source. -/
inductive EncodeError where
deriving DecidableEq

/-- Modelled from the spec: the Wire Cursor decoder (`BinDecoder`), a
bounds-checked, position-tracked view over a byte buffer.  The decoder
source is not part of this repository snapshot; only its `pop` contract is
specified: read the next byte, failing with `Truncated` when exhausted. -/
structure BinDecoder where
  buffer : List Nat
  index : Nat
deriving DecidableEq, Repr

/-- Modelled from the spec: `pop() -> byte` reads the next byte and
advances the cursor, failing with the `Truncated` condition if the buffer
is exhausted. -/
def BinDecoder.pop (d : BinDecoder) : Except DecodeError (Nat × BinDecoder) :=
  match d.buffer[d.index]? with
  | some b => .ok (b, { d with index := d.index + 1 })
  | none => .error .truncated

/-- Modelled from the spec: the Wire Cursor encoder (`BinEncoder`), an
output byte buffer.  `emit(byte)` appends one octet; the `% 256` models
the `u8` argument type. -/
structure BinEncoder where
  buffer : List Nat
deriving DecidableEq, Repr

/-- Modelled from the spec: `emit(byte)` appends one byte to the output
buffer. -/
def BinEncoder.emit (e : BinEncoder) (b : Nat) : Except EncodeError BinEncoder :=
  .ok { buffer := e.buffer ++ [b % 256] }

/-- Lexical tokens of the zone-text serializer, as consumed by the
rdata `parse` functions: bare character-data and quoted strings. -/
inductive Token where
  | charData (s : String)
  | quoted (s : String)
deriving DecidableEq, Repr

/-- Zone-text parse errors (`ParseError` / `ParseErrorKind` in the
source). `addrParse` is the error produced when a string fails to parse
as an address literal (`AddrParseError` propagated by `try!`). -/
inductive ParseError where
  | missingToken (what : String)
  | unexpectedToken (t : Token)
  | addrParse (s : String)
  | unknownRecordType (s : String)
  | invalidName (s : String)
  | invalidNumber (s : String)
  | missingOwnerName
  | missingTTL
  | lexerError
deriving DecidableEq, Repr

/-- Decimal digit value of a character, if it is a digit. -/
def digitVal (c : Char) : Option Nat :=
  if '0' ≤ c ∧ c ≤ '9' then some (c.toNat - '0'.toNat) else none

/-- Parse a nonempty all-decimal string to its numeric value. -/
def decimalNat : List Char → Option Nat
  | [] => none
  | cs => go cs 0
where
  go : List Char → Nat → Option Nat
    | [], acc => some acc
    | c :: cs, acc =>
      match digitVal c with
      | some d => go cs (acc * 10 + d)
      | none => none

/-- Split a string on the `.` character (no escapes: address literals
contain none). -/
def splitDots (cs : List Char) (cur : List Char) : List (List Char) :=
  match cs with
  | [] => [cur.reverse]
  | '.' :: rest => cur.reverse :: splitDots rest []
  | c :: rest => splitDots rest (c :: cur)

/-- Modelled from the spec: `Ipv4Addr::from_str` (Rust std, external to
this repository) — the dotted-quad grammar for A records: exactly four
decimal components separated by dots, each a number in `0..=255`. -/
def ipv4FromString (s : String) : Option Ipv4Addr :=
  match (splitDots s.toList []).mapM decimalNat with
  | some [a, b, c, d] =>
    if a < 256 ∧ b < 256 ∧ c < 256 ∧ d < 256 then some ⟨a, b, c, d⟩ else none
  | _ => none

namespace A

/-- The `read` function from `a.rs`: decode an A record by popping four octets from
the decoder, most significant first. -/
def read (decoder : BinDecoder) : Except DecodeError (Ipv4Addr × BinDecoder) := do
  let (b0, decoder) ← decoder.pop
  let (b1, decoder) ← decoder.pop
  let (b2, decoder) ← decoder.pop
  let (b3, decoder) ← decoder.pop
  .ok (Ipv4Addr.mk b0 b1 b2 b3, decoder)

/-- The `emit` function from `a.rs`: encode an A record by emitting its four octets in
order. -/
def emit (encoder : BinEncoder) (address : Ipv4Addr) : Except EncodeError BinEncoder := do
  let encoder ← encoder.emit address.o0
  let encoder ← encoder.emit address.o1
  let encoder ← encoder.emit address.o2
  let encoder ← encoder.emit address.o3
  .ok encoder

/-- The `parse` function from `a.rs`: take the first token; fail with `MissingToken`
when there is none, with `UnexpectedToken` when it is not character-data,
and with the address parse error when the character-data is not a valid
dotted quad. -/
def parse (tokens : List Token) : Except ParseError Ipv4Addr :=
  match tokens with
  | [] => .error (.missingToken "ipv4 address")
  | t :: _ =>
    match t with
    | .charData s =>
      match ipv4FromString s with
      | some address => .ok address
      | none => .error (.addrParse s)
    | _ => .error (.unexpectedToken t)

end A

/-- One logical record line produced by the zone lexer: whether the line
began with whitespace (which makes the record inherit the previous owner
name) and the line's tokens, with parenthesized groups already spliced
in. -/
structure Line where
  leadWS : Bool
  toks : List Token
deriving DecidableEq, Repr

namespace Lexer

/-- Lexer modes: scanning bare data, inside a `;` comment, or inside a
quoted string. -/
inductive Mode where
  | normal
  | comment
  | quoted
deriving DecidableEq, Repr

/-- Modelled from the spec: internal state of the zone Lexer (the
`trust_dns::serialize::txt::Lexer` source is not part of this repository
snapshot).  `acc` is the character-data being accumulated (reversed),
`toks` the tokens of the current logical line (reversed), `depth` the
parenthesis-group depth, `leadWS` whether the current line began with
whitespace, `touched` whether any token has started on the line. -/
structure St where
  mode : Mode
  acc : List Char
  inWord : Bool
  toks : List Token
  leadWS : Bool
  touched : Bool
  depth : Nat
  lines : List Line
deriving Repr

/-- Initial lexer state. -/
def initSt : St :=
  { mode := .normal, acc := [], inWord := false, toks := [], leadWS := false,
    touched := false, depth := 0, lines := [] }

/-- Finish the bare word in progress, if any, emitting a character-data
token.  Escapes inside bare character-data are preserved here and
collapsed by the consumer (name or character-string parsing), so that a
`\.` does not become a label separator. -/
def flushWord (st : St) : St :=
  if st.inWord then
    { st with toks := .charData (String.mk st.acc.reverse) :: st.toks,
              acc := [], inWord := false }
  else st

/-- Append one character to the bare word in progress. -/
def pushWord (c : Char) (st : St) : St :=
  { st with acc := c :: st.acc, inWord := true, touched := true }

/-- Append a backslash escape (both characters) to the bare word in
progress. -/
def pushEscape (d : Char) (st : St) : St :=
  { st with acc := d :: '\\' :: st.acc, inWord := true, touched := true }

/-- Append one character of quoted content (escapes already collapsed). -/
def pushQuoted (d : Char) (st : St) : St :=
  { st with acc := d :: st.acc }

/-- Enter a quoted string. -/
def openQuote (st : St) : St :=
  { st with mode := .quoted, touched := true }

/-- Close a quoted string, emitting a quoted-string token. -/
def closeQuote (st : St) : St :=
  { st with mode := .normal, toks := .quoted (String.mk st.acc.reverse) :: st.toks,
            acc := [] }

/-- Open a parenthesized group: newline stops terminating the line. -/
def openParen (st : St) : St :=
  { st with depth := st.depth + 1, touched := true }

/-- Close a parenthesized group; a close with no open group is a lexer
error. -/
def closeParen (st : St) : Option St :=
  match st.depth with
  | 0 => none
  | n + 1 => some { st with depth := n }

/-- Whitespace inside a line; whitespace before any token marks the line
as starting with whitespace. -/
def space (st : St) : St :=
  if st.touched then st else { st with leadWS := true }

/-- A newline: terminates the logical line when no parenthesized group is
open (empty lines are dropped), otherwise acts as whitespace; a comment
always ends here. -/
def newline (st : St) : St :=
  if st.depth > 0 then { st with mode := .normal }
  else
    { st with mode := .normal, toks := [], leadWS := false, touched := false,
              lines := if st.toks.isEmpty then st.lines
                       else ⟨st.leadWS, st.toks.reverse⟩ :: st.lines }

/-- End of input: an unterminated quote or open group is a lexer error,
otherwise the last line is flushed. -/
def finish (st : St) : Option (List Line) :=
  if st.mode = .quoted ∨ st.depth ≠ 0 then none
  else
    let st := flushWord st
    let st := newline st
    some st.lines.reverse

/-- Modelled from the spec: the single-pass zone lexer loop.  It collapses
backslash-escaped characters (inside quoted strings directly; inside bare
character-data the escape pair is kept for the downstream label/string
parse), treats parentheses as multi-line grouping that suspends
newline-as-terminator, and treats `;` as a comment to end of line outside
quotes. -/
def run : List Char → St → Option (List Line)
  | [], st => finish st
  | c :: cs, st =>
    match st.mode with
    | .comment =>
      if c = '\n' then run cs (newline st) else run cs st
    | .quoted =>
      if c = '"' then run cs (closeQuote st)
      else if c = '\\' then
        match cs with
        | d :: cs2 => run cs2 (pushQuoted d st)
        | [] => none
      else run cs (pushQuoted c st)
    | .normal =>
      if c = '\\' then
        match cs with
        | d :: cs2 => run cs2 (pushEscape d st)
        | [] => none
      else if c = '"' then run cs (openQuote (flushWord st))
      else if c = ';' then run cs { flushWord st with mode := .comment }
      else if c = '(' then run cs (openParen (flushWord st))
      else if c = ')' then
        match closeParen (flushWord st) with
        | some st2 => run cs st2
        | none => none
      else if c = ' ' ∨ c = '\t' ∨ c = '\r' then run cs (space (flushWord st))
      else if c = '\n' then run cs (newline (flushWord st))
      else run cs (pushWord c st)

/-- Modelled from the spec: lex a whole zone text into logical record
lines. -/
def lexZone (text : String) : Option (List Line) :=
  run text.toList initSt

end Lexer

/-- A domain name: an ordered sequence of labels, case preserved as
written. -/
abbrev Name := List String

/-- ASCII case fold of one character. -/
def charLower (c : Char) : Char :=
  if 'A' ≤ c ∧ c ≤ 'Z' then Char.ofNat (c.toNat + 32) else c

/-- ASCII case fold of a string. -/
def strLower (s : String) : String :=
  String.mk (s.toList.map charLower)

/-- Modelled from the spec: name comparison is case-insensitive (ASCII
fold) while storage is case-preserving. -/
def nameEq (a b : Name) : Bool :=
  decide (a.map strLower = b.map strLower)

/-- Split the character-data of a name into labels, collapsing backslash
escapes so that an escaped dot `\.` stays inside its label instead of
separating labels.  Returns the labels and whether the name was written
fully qualified (trailing root dot).  Empty labels and a trailing
backslash are invalid. -/
def splitLabels : List Char → List Char → List String → Option (List String × Bool)
  | [], [], [] => none
  | [], [], acc => some (acc.reverse, true)
  | [], cur, acc => some ((String.mk cur.reverse :: acc).reverse, false)
  | '\\' :: [], _, _ => none
  | '\\' :: d :: cs, cur, acc => splitLabels cs (d :: cur) acc
  | '.' :: cs, cur, acc =>
    if cur.isEmpty then none
    else splitLabels cs [] (String.mk cur.reverse :: acc)
  | c :: cs, cur, acc => splitLabels cs (c :: cur) acc

/-- Modelled from the spec: parse a name from zone character-data against
an origin.  `@` denotes the origin itself; a fully qualified name (with
trailing dot) stands alone; a relative name is qualified by appending the
origin's labels. -/
def parseName (s : String) (origin : Name) : Option Name :=
  if s = "@" then some origin
  else
    match splitLabels s.toList [] [] with
    | some (ls, true) => some ls
    | some (ls, false) => some (ls ++ origin)
    | none => none

/-- Collapse backslash escapes in bare character-data (used for TXT
character-strings). -/
def collapseEscapes (s : String) : String :=
  String.mk (go s.toList)
where
  go : List Char → List Char
    | [] => []
    | '\\' :: d :: cs => d :: go cs
    | c :: cs => c :: go cs

/-- The record types exercised by this core. -/
inductive RecordType where
  | A
  | AAAA
  | ANY
  | CNAME
  | MX
  | NS
  | PTR
  | SOA
  | SRV
  | TXT
deriving DecidableEq, Repr

/-- Modelled from the spec: record-type keyword recognition during zone
parsing; an unrecognized keyword fails the zone load. -/
def recordTypeFromStr (s : String) : Option RecordType :=
  if s = "A" then some .A
  else if s = "AAAA" then some .AAAA
  else if s = "ANY" then some .ANY
  else if s = "CNAME" then some .CNAME
  else if s = "MX" then some .MX
  else if s = "NS" then some .NS
  else if s = "PTR" then some .PTR
  else if s = "SOA" then some .SOA
  else if s = "SRV" then some .SRV
  else if s = "TXT" then some .TXT
  else none

/-- DNS classes; only IN is exercised by this core. -/
inductive DNSClass where
  | IN
deriving DecidableEq, Repr

/-- Class keyword recognition. -/
def dnsClassFromStr (s : String) : Option DNSClass :=
  if s = "IN" then some .IN else none

/-- SOA rdata fields: `(mname, rname, serial, refresh, retry, expire,
minimum)`; the numeric fields are `u32` values. -/
structure SOAData where
  mname : Name
  rname : Name
  serial : Nat
  refresh : Nat
  retry : Nat
  expire : Nat
  minimum : Nat
deriving DecidableEq, Repr

/-- The tagged rdata variant: one case per supported record type, each
carrying its RFC-defined fields.  AAAA is stored as its eight 16-bit
groups. -/
inductive RData where
  | a (address : Ipv4Addr)
  | aaaa (groups : List Nat)
  | cname (cnameTarget : Name)
  | mx (preference : Nat) (exchange : Name)
  | ns (nsdname : Name)
  | ptr (ptrdname : Name)
  | soa (d : SOAData)
  | srv (priority : Nat) (weight : Nat) (port : Nat) (target : Name)
  | txt (txtData : List String)
deriving DecidableEq, Repr

/-- The rname labels of an SOA rdata (empty for the other variants). -/
def RData.soaRname : RData → Name
  | .soa d => d.rname
  | _ => []

/-- A resource record: `(name, record_type, class, ttl, rdata)`. -/
structure Record where
  name : Name
  rrType : RecordType
  dnsClass : DNSClass
  ttl : Nat
  rdata : RData
deriving DecidableEq, Repr

/-- Hex digit value of a character, if any. -/
def hexVal (c : Char) : Option Nat :=
  if '0' ≤ c ∧ c ≤ '9' then some (c.toNat - '0'.toNat)
  else if 'a' ≤ c ∧ c ≤ 'f' then some (c.toNat - 'a'.toNat + 10)
  else if 'A' ≤ c ∧ c ≤ 'F' then some (c.toNat - 'A'.toNat + 10)
  else none

/-- Parse a nonempty all-hex string to its numeric value. -/
def hexNat : List Char → Option Nat
  | [] => none
  | cs => go cs 0
where
  go : List Char → Nat → Option Nat
    | [], acc => some acc
    | c :: cs, acc =>
      match hexVal c with
      | some d => go cs (acc * 16 + d)
      | none => none

/-- Split a string on the `:` character. -/
def splitColons (cs : List Char) (cur : List Char) : List (List Char) :=
  match cs with
  | [] => [cur.reverse]
  | ':' :: rest => cur.reverse :: splitColons rest []
  | c :: rest => splitColons rest (c :: cur)

/-- Modelled from the spec: the colon-hex grammar for AAAA literals, for
the fully written form of eight 16-bit hex groups separated by colons. -/
def ipv6FromString (s : String) : Option (List Nat) :=
  match (splitColons s.toList []).mapM hexNat with
  | some groups =>
    if groups.length = 8 ∧ groups.all (· < 65536) then some groups else none
  | none => none

/-- Take the next character-data token, failing with `MissingToken` or
`UnexpectedToken`. -/
def nextCharData (what : String) (toks : List Token) :
    Except ParseError (String × List Token) :=
  match toks with
  | [] => .error (.missingToken what)
  | .charData s :: rest => .ok (s, rest)
  | t :: _ => .error (.unexpectedToken t)

/-- Take the next token as a name qualified against the origin. -/
def nextName (what : String) (origin : Name) (toks : List Token) :
    Except ParseError (Name × List Token) := do
  let (s, rest) ← nextCharData what toks
  match parseName s origin with
  | some n => .ok (n, rest)
  | none => .error (.invalidName s)

/-- Take the next token as an unsigned number strictly below `bound`
(no silent truncation: overflow fails the record). -/
def nextNum (what : String) (bound : Nat) (toks : List Token) :
    Except ParseError (Nat × List Token) := do
  let (s, rest) ← nextCharData what toks
  match decimalNat s.toList with
  | some n => if n < bound then .ok (n, rest) else .error (.invalidNumber s)
  | none => .error (.invalidNumber s)

/-- Map one zone token to one TXT character-string: a quoted string is one
character-string verbatim, a bare word is one character-string with
escapes collapsed. -/
def txtString : Token → String
  | .charData s => collapseEscapes s
  | .quoted s => s

/-- Modelled from the spec: per-type rdata parse from the record line's
remaining tokens (the Record-Data Variant Registry's `parse` operations,
except A, whose `parse` is the one embedded from `a.rs`).  Relative names
inside rdata are qualified against the origin.  `u16` fields (MX
preference, SRV priority/weight/port) and `u32` fields (SOA counters)
reject out-of-range literals. -/
def parseRData (rt : RecordType) (origin : Name) (toks : List Token) :
    Except ParseError RData :=
  match rt with
  | .A => (A.parse toks).map .a
  | .AAAA => do
    let (s, _) ← nextCharData "ipv6 address" toks
    match ipv6FromString s with
    | some groups => .ok (.aaaa groups)
    | none => .error (.addrParse s)
  | .CNAME => do
    let (n, _) ← nextName "cname" origin toks
    .ok (.cname n)
  | .NS => do
    let (n, _) ← nextName "ns" origin toks
    .ok (.ns n)
  | .PTR => do
    let (n, _) ← nextName "ptrdname" origin toks
    .ok (.ptr n)
  | .MX => do
    let (preference, toks) ← nextNum "preference" 65536 toks
    let (exchange, _) ← nextName "exchange" origin toks
    .ok (.mx preference exchange)
  | .SRV => do
    let (priority, toks) ← nextNum "priority" 65536 toks
    let (weight, toks) ← nextNum "weight" 65536 toks
    let (port, toks) ← nextNum "port" 65536 toks
    let (target, _) ← nextName "target" origin toks
    .ok (.srv priority weight port target)
  | .SOA => do
    let (mname, toks) ← nextName "mname" origin toks
    let (rname, toks) ← nextName "rname" origin toks
    let (serial, toks) ← nextNum "serial" 4294967296 toks
    let (refresh, toks) ← nextNum "refresh" 4294967296 toks
    let (retry, toks) ← nextNum "retry" 4294967296 toks
    let (expire, toks) ← nextNum "expire" 4294967296 toks
    let (minimum, _) ← nextNum "minimum" 4294967296 toks
    .ok (.soa ⟨mname, rname, serial, refresh, retry, expire, minimum⟩)
  | .TXT =>
    match toks with
    | [] => .error (.missingToken "txt data")
    | _ => .ok (.txt (toks.map txtString))
  | .ANY => .error (.unknownRecordType "ANY")

/-- Modelled from the spec: mutable parse state threaded through the zone
parse loop — the current origin, the current owner name (inherited by
lines starting with whitespace), the current default TTL (inherited from
the first SOA minimum), and the records parsed so far (reversed). -/
structure ParserState where
  origin : Name
  currentName : Option Name
  defaultTTL : Option Nat
  records : List Record

/-- Modelled from the spec: resolve the optional TTL / class / type
prefix of a record line by type-sniffing — a token that parses as an
integer is the TTL, a token matching a known class name is the class, and
the first other token must be the record-type keyword; an unknown keyword
fails the zone load. -/
def sniffType : List Token → Option Nat → Option DNSClass →
    Except ParseError (Option Nat × DNSClass × RecordType × List Token)
  | [], _, _ => .error (.missingToken "record type")
  | .charData s :: rest, ttl, cls =>
    match decimalNat s.toList with
    | some n =>
      if n < 4294967296 then sniffType rest (some n) cls
      else .error (.invalidNumber s)
    | none =>
      match dnsClassFromStr s with
      | some c => sniffType rest ttl (some c)
      | none =>
        match recordTypeFromStr s with
        | some rt => .ok (ttl, cls.getD .IN, rt, rest)
        | none => .error (.unknownRecordType s)
  | t :: _, _, _ => .error (.unexpectedToken t)

/-- Modelled from the spec: build one record from one logical line.  A
line starting with whitespace inherits the previous owner name; otherwise
its first token is the owner name, qualified against the origin.  The
record's TTL is the explicit per-record TTL when present, otherwise the
current default TTL; an SOA record takes its own TTL from its expire
field (as the zone-load test expects) and installs its minimum as the
default TTL when none is set yet. -/
def processLine (st : ParserState) (line : Line) : Except ParseError ParserState := do
  let (owner, rest) ←
    (if line.leadWS then
      match st.currentName with
      | some n => .ok (n, line.toks)
      | none => .error .missingOwnerName
    else
      nextName "owner name" st.origin line.toks)
  let (ttlOpt, cls, rt, rdTokens) ← sniffType rest none none
  let rdata ← parseRData rt st.origin rdTokens
  let (ttl, newDefault) ←
    (match rdata with
    | .soa d => .ok (ttlOpt.getD d.expire, some (st.defaultTTL.getD d.minimum))
    | _ =>
      match ttlOpt with
      | some t => .ok (t, st.defaultTTL)
      | none =>
        match st.defaultTTL with
        | some t => .ok (t, st.defaultTTL)
        | none => .error .missingTTL)
  .ok { st with currentName := some owner, defaultTTL := newDefault,
                records := ⟨owner, rt, cls, ttl, rdata⟩ :: st.records }

namespace Parser

/-- Modelled from the spec: `Parser::parse(lexer, origin)` — consume the
lexer's lines against the caller-supplied origin and produce the zone's
origin and records; any failure aborts the whole zone load. -/
def parse (text : String) (origin : Name) :
    Except ParseError (Name × List Record) := do
  match Lexer.lexZone text with
  | none => .error .lexerError
  | some lines =>
    let final ← lines.foldlM processLine ⟨origin, none, none, []⟩
    .ok (origin, final.records.reverse)

end Parser

/-- Lookup-level error conditions of the Authority. -/
inductive LookupError where
  | notAuthoritative
deriving DecidableEq, Repr

/-- Modelled from the spec: the Authority owns the zone's origin and its
record set. -/
structure Authority where
  origin : Name
  records : List Record
deriving DecidableEq, Repr

/-- Modelled from the spec: `lookup(name, record_type)` — exact
(case-insensitive) name match; ANY returns all types at the name; when
the queried type is not CNAME, a CNAME at the exact name is included as
well (further resolution of its target is the collaborator's concern).
Answers keep insertion order. -/
def Authority.lookup (auth : Authority) (name : Name) (rt : RecordType) :
    List Record :=
  let atName := auth.records.filter fun r => nameEq r.name name
  if rt = .ANY then atName
  else
    let direct := atName.filter fun r => decide (r.rrType = rt)
    if rt = .CNAME then direct
    else direct ++ atName.filter fun r => decide (r.rrType = .CNAME)

/-- Modelled from the spec: `soa()` returns the unique authority SOA
record, or fails with `NotAuthoritative` when none is loaded. -/
def Authority.soa (auth : Authority) : Except LookupError Record :=
  match (auth.records.filter fun r =>
      nameEq r.name auth.origin && decide (r.rrType = .SOA)).head? with
  | some r => .ok r
  | none => .error .notAuthoritative

/-- The zone text of `test_string` in `src/server/tests/txt_tests.rs`,
with Rust's backslash-newline line continuations already applied (they
splice the next line's leading whitespace away before the lexer ever runs). -/
def zoneText : String :=
  String.intercalate "\n"
    ["@   IN  SOA     venera      action\\.domains (",
     "                               20     ; SERIAL",
     "                               7200   ; REFRESH",
     "                               600    ; RETRY",
     "                               3600000; EXPIRE",
     "                               60)    ; MINIMUM",
     "",
     "      NS      a.isi.edu.",
     "      NS      venera",
     "      NS      vaxa",
     "      MX      10      venera",
     "      MX      20      vaxa",
     "",
     "a       A       26.3.0.103",
     "        TXT     I am a txt record",
     "        TXT     I am another txt record",
     "        TXT     \"I am a different\" \"txt record\"",
     "        TXT     key=val",
     "aaaa    AAAA    4321:0:1:2:3:4:567:89ab",
     "alias   CNAME   a",
     "103.0.3.26.IN-ADDR.ARPA.   PTR a",
     "b.a.9.8.7.6.5.0.4.0.0.0.3.0.0.0.2.0.0.0.1.0.0.0.0.0.0.0.1.2.3.4.IP6.ARPA. PTR aaaa",
     "",
     "_ldap._tcp.service SRV 1 2 3 short",
     "",
     "short 70 A      26.3.0.104",
     "venera  A       10.1.0.52",
     "      A       128.9.0.32"]

/-- The origin the test passes to the parser: `isi.edu`. -/
def testOrigin : Name := ["isi", "edu"]

/-- The records the test zone parses to (empty only if the parse fails;
`zone_parse_ok` below shows it does not). -/
def testRecords : List Record :=
  match Parser.parse zoneText testOrigin with
  | .ok (_, records) => records
  | .error _ => []

/-- The Authority the test builds over the parsed zone. -/
def testAuthority : Authority :=
  { origin := testOrigin, records := testRecords }

/-- The explicit record list the test zone parses to (in zone order). -/
def zoneRecords : List Record :=
  [⟨["isi", "edu"], .SOA, .IN, 3600000,
    .soa ⟨["venera", "isi", "edu"], ["action.domains", "isi", "edu"],
          20, 7200, 600, 3600000, 60⟩⟩,
   ⟨["isi", "edu"], .NS, .IN, 60, .ns ["a", "isi", "edu"]⟩,
   ⟨["isi", "edu"], .NS, .IN, 60, .ns ["venera", "isi", "edu"]⟩,
   ⟨["isi", "edu"], .NS, .IN, 60, .ns ["vaxa", "isi", "edu"]⟩,
   ⟨["isi", "edu"], .MX, .IN, 60, .mx 10 ["venera", "isi", "edu"]⟩,
   ⟨["isi", "edu"], .MX, .IN, 60, .mx 20 ["vaxa", "isi", "edu"]⟩,
   ⟨["a", "isi", "edu"], .A, .IN, 60, .a ⟨26, 3, 0, 103⟩⟩,
   ⟨["a", "isi", "edu"], .TXT, .IN, 60, .txt ["I", "am", "a", "txt", "record"]⟩,
   ⟨["a", "isi", "edu"], .TXT, .IN, 60, .txt ["I", "am", "another", "txt", "record"]⟩,
   ⟨["a", "isi", "edu"], .TXT, .IN, 60, .txt ["I am a different", "txt record"]⟩,
   ⟨["a", "isi", "edu"], .TXT, .IN, 60, .txt ["key=val"]⟩,
   ⟨["aaaa", "isi", "edu"], .AAAA, .IN, 60, .aaaa [17185, 0, 1, 2, 3, 4, 1383, 35243]⟩,
   ⟨["alias", "isi", "edu"], .CNAME, .IN, 60, .cname ["a", "isi", "edu"]⟩,
   ⟨["103", "0", "3", "26", "IN-ADDR", "ARPA"], .PTR, .IN, 60, .ptr ["a", "isi", "edu"]⟩,
   ⟨["b", "a", "9", "8", "7", "6", "5", "0", "4", "0", "0", "0", "3", "0", "0", "0",
     "2", "0", "0", "0", "1", "0", "0", "0", "0", "0", "0", "0", "1", "2", "3", "4",
     "IP6", "ARPA"], .PTR, .IN, 60, .ptr ["aaaa", "isi", "edu"]⟩,
   ⟨["_ldap", "_tcp", "service", "isi", "edu"], .SRV, .IN, 60,
    .srv 1 2 3 ["short", "isi", "edu"]⟩,
   ⟨["short", "isi", "edu"], .A, .IN, 70, .a ⟨26, 3, 0, 104⟩⟩,
   ⟨["venera", "isi", "edu"], .A, .IN, 60, .a ⟨10, 1, 0, 52⟩⟩,
   ⟨["venera", "isi", "edu"], .A, .IN, 60, .a ⟨128, 9, 0, 32⟩⟩]

set_option maxRecDepth 400000

/-- The test zone load succeeds and produces exactly `zoneRecords`. -/
theorem zone_parse_eq : Parser.parse zoneText testOrigin = .ok (testOrigin, zoneRecords) := by
  rfl

/-- The records behind `testAuthority`, explicitly. -/
theorem testRecords_eq : testRecords = zoneRecords := by
  unfold testRecords
  rw [zone_parse_eq]

/-- The test Authority, explicitly. -/
theorem testAuthority_eq : testAuthority = ⟨testOrigin, zoneRecords⟩ := by
  unfold testAuthority
  rw [testRecords_eq]

/-- Popping a position inside the buffer returns that byte and advances
the cursor by one. -/
theorem pop_some (buf : List Nat) (i b : Nat) (h : buf[i]? = some b) :
    BinDecoder.pop ⟨buf, i⟩ = .ok (b, ⟨buf, i + 1⟩) := by
  simp [BinDecoder.pop, h]

/-- Popping past the end of the buffer fails with `Truncated`. -/
theorem pop_none (buf : List Nat) (i : Nat) (h : buf[i]? = none) :
    BinDecoder.pop ⟨buf, i⟩ = .error .truncated := by
  simp [BinDecoder.pop, h]

/-- With at least four bytes remaining, `A.read` consumes exactly the
next four octets and returns them, in order, as the address. -/
theorem a_read_ok (d : BinDecoder) (h : d.index + 4 ≤ d.buffer.length) :
    A.read d = .ok (⟨d.buffer[d.index], d.buffer[d.index + 1],
                    d.buffer[d.index + 2], d.buffer[d.index + 3]⟩,
                   ⟨d.buffer, d.index + 4⟩) := by
  obtain ⟨buf, i⟩ := d
  simp only at h ⊢
  unfold A.read
  rw [pop_some buf i _ (List.getElem?_eq_getElem (by omega))]
  simp only [Bind.bind, Except.bind]
  rw [pop_some buf (i + 1) _ (List.getElem?_eq_getElem (by omega))]
  simp only [Bind.bind, Except.bind]
  rw [pop_some buf (i + 1 + 1) _ (List.getElem?_eq_getElem (by omega))]
  simp only [Bind.bind, Except.bind]
  rw [pop_some buf (i + 1 + 1 + 1) _ (List.getElem?_eq_getElem (by omega))]

/-- With fewer than four bytes remaining, `A.read` fails with the
`Truncated` condition propagated from `pop`. -/
theorem a_read_err (d : BinDecoder) (h : d.buffer.length < d.index + 4) :
    A.read d = .error .truncated := by
  obtain ⟨buf, i⟩ := d
  simp only at h ⊢
  unfold A.read
  rcases g0 : buf[i]? with _ | b0
  · rw [pop_none buf i g0]
    rfl
  rw [pop_some buf i b0 g0]
  simp only [Bind.bind, Except.bind]
  rcases g1 : buf[i + 1]? with _ | b1
  · rw [pop_none buf (i + 1) g1]
  rw [pop_some buf (i + 1) b1 g1]
  simp only [Bind.bind, Except.bind]
  rcases g2 : buf[i + 1 + 1]? with _ | b2
  · rw [pop_none buf (i + 1 + 1) g2]
  rw [pop_some buf (i + 1 + 1) b2 g2]
  simp only [Bind.bind, Except.bind]
  rcases g3 : buf[i + 1 + 1 + 1]? with _ | b3
  · rw [pop_none buf (i + 1 + 1 + 1) g3]
  · exfalso
    obtain ⟨hl, _⟩ := List.getElem?_eq_some.mp g3
    omega

/-- C1: binary round-trip for the A record type — for every well-formed
`Ipv4Addr` value `v`, emitting `v` with `emit` and decoding the produced
bytes with `read` succeeds and returns `v` (consuming exactly the four
emitted octets), and re-emitting the decoded value yields the same byte
sequence, byte for byte. -/
theorem a_emit_read_roundtrip (v : Ipv4Addr) (h : v.valid) :
    ∃ (bytes : List Nat) (w : Ipv4Addr),
      A.emit ⟨[]⟩ v = .ok ⟨bytes⟩ ∧
      A.read ⟨bytes, 0⟩ = .ok (w, ⟨bytes, 4⟩) ∧
      w = v ∧
      A.emit ⟨[]⟩ w = .ok ⟨bytes⟩ := by
  obtain ⟨h0, h1, h2, h3⟩ := h
  refine ⟨[v.o0, v.o1, v.o2, v.o3], v, ?_, rfl, rfl, ?_⟩ <;>
    · simp only [A.emit, BinEncoder.emit, Bind.bind, Except.bind,
                 Nat.mod_eq_of_lt h0, Nat.mod_eq_of_lt h1,
                 Nat.mod_eq_of_lt h2, Nat.mod_eq_of_lt h3]
      rfl

/-- Witness for C1 at the concrete address 192.168.64.32 (one of the
source's own test vectors). -/
theorem a_emit_read_roundtrip_witness :
    ∃ (bytes : List Nat) (w : Ipv4Addr),
      A.emit ⟨[]⟩ ⟨192, 168, 64, 32⟩ = .ok ⟨bytes⟩ ∧
      A.read ⟨bytes, 0⟩ = .ok (w, ⟨bytes, 4⟩) ∧
      w = ⟨192, 168, 64, 32⟩ ∧
      A.emit ⟨[]⟩ w = .ok ⟨bytes⟩ :=
  a_emit_read_roundtrip ⟨192, 168, 64, 32⟩ (by decide)

/-- C5: for every decoder state, `A.read` returns an error — the
`Truncated` condition propagated from `pop` — if and only if fewer than
four bytes remain in the buffer; otherwise it consumes exactly the next
four octets and returns the `Ipv4Addr` whose octets are those bytes in
order. -/
theorem a_read_truncation (d : BinDecoder) :
    ((∃ e, A.read d = .error e) ↔ d.buffer.length < d.index + 4) ∧
    (d.buffer.length < d.index + 4 → A.read d = .error .truncated) ∧
    (∀ h : d.index + 4 ≤ d.buffer.length,
      A.read d = .ok (⟨d.buffer[d.index], d.buffer[d.index + 1],
                      d.buffer[d.index + 2], d.buffer[d.index + 3]⟩,
                     ⟨d.buffer, d.index + 4⟩)) := by
  refine ⟨⟨?_, fun hl => ⟨.truncated, a_read_err d hl⟩⟩, a_read_err d, a_read_ok d⟩
  rintro ⟨e, he⟩
  by_contra hlen
  push_neg at hlen
  rw [a_read_ok d hlen] at he
  exact Except.noConfusion he

/-- Witness for C5: a two-byte buffer is truncated; a four-byte buffer
decodes to its four octets. -/
theorem a_read_truncation_witness :
    A.read ⟨[1, 2], 0⟩ = .error .truncated ∧
    A.read ⟨[26, 3, 0, 103], 0⟩ = .ok (⟨26, 3, 0, 103⟩, ⟨[26, 3, 0, 103], 4⟩) := by
  constructor
  · exact (a_read_truncation ⟨[1, 2], 0⟩).2.1 (by decide)
  · have h := (a_read_truncation ⟨[26, 3, 0, 103], 0⟩).2.2 (by decide)
    simpa using h

/-- C6: `A.parse` on an empty token list fails with a `MissingToken`
error; on a first token that is not character-data it fails with an
`UnexpectedToken` error; on first character-data that is not a valid
dotted-quad IPv4 literal it fails with the address parse error — it never
silently defaults a malformed literal. -/
theorem a_parse_error_cases :
    A.parse [] = .error (.missingToken "ipv4 address") ∧
    (∀ (t : Token) (rest : List Token), (∀ s, t ≠ .charData s) →
      A.parse (t :: rest) = .error (.unexpectedToken t)) ∧
    (∀ (s : String) (rest : List Token), ipv4FromString s = none →
      A.parse (.charData s :: rest) = .error (.addrParse s)) := by
  refine ⟨rfl, ?_, ?_⟩
  · intro t rest ht
    cases t with
    | charData s => exact absurd rfl (ht s)
    | quoted s => rfl
  · intro s rest hs
    simp [A.parse, hs]

/-- Witness for C6: a quoted first token is rejected as unexpected and a
malformed dotted quad fails with the address parse error. -/
theorem a_parse_error_cases_witness :
    A.parse [Token.quoted "26.3.0.103"] =
      .error (.unexpectedToken (.quoted "26.3.0.103")) ∧
    A.parse [Token.charData "26.3.0"] = .error (.addrParse "26.3.0") :=
  ⟨a_parse_error_cases.2.1 (.quoted "26.3.0.103") [] (fun _ h => Token.noConfusion h),
   a_parse_error_cases.2.2 "26.3.0" [] (by decide)⟩

/-- C9: `A.parse` examines only the first token — whenever the first
token is character-data holding a valid dotted quad, it returns that
address and ignores all trailing tokens. -/
theorem a_parse_ignores_trailing (s : String) (rest : List Token) (address : Ipv4Addr)
    (h : ipv4FromString s = some address) :
    A.parse (.charData s :: rest) = .ok address := by
  simp [A.parse, h]

/-- Witness for C9: trailing tokens after a valid address are ignored. -/
theorem a_parse_ignores_trailing_witness :
    A.parse [.charData "26.3.0.103", .charData "extra", .quoted "junk"] =
      .ok ⟨26, 3, 0, 103⟩ :=
  a_parse_ignores_trailing "26.3.0.103" [.charData "extra", .quoted "junk"]
    ⟨26, 3, 0, 103⟩ (by decide)

/-- C2: after loading the test zone (origin `isi.edu`, SOA minimum 60),
lookup of `a.isi.edu.` with type A returns exactly one record, with the
defaulted TTL 60 and address 26.3.0.103, and lookup of `short.isi.edu.`
with type A returns exactly the record with its explicit TTL 70 and
address 26.3.0.104. -/
theorem zone_ttl_defaulting :
    (Parser.parse zoneText testOrigin).isOk = true ∧
    testAuthority.lookup ["a", "isi", "edu"] .A =
      [⟨["a", "isi", "edu"], .A, .IN, 60, .a ⟨26, 3, 0, 103⟩⟩] ∧
    testAuthority.lookup ["short", "isi", "edu"] .A =
      [⟨["short", "isi", "edu"], .A, .IN, 70, .a ⟨26, 3, 0, 104⟩⟩] := by
  refine ⟨?_, ?_, ?_⟩
  · rw [zone_parse_eq]
    rfl
  · rw [testAuthority_eq]
    rfl
  · rw [testAuthority_eq]
    rfl

/-- C3: parsing `_ldap._tcp.service SRV 1 2 3 short` under origin
`isi.edu` and looking up `_ldap._tcp.service.isi.edu` with type SRV
yields the record whose SRV rdata has priority 1, weight 2, port 3, and
whose target is the relative name `short` qualified against the origin,
`short.isi.edu.`. -/
theorem zone_srv_qualified :
    (Parser.parse zoneText testOrigin).isOk = true ∧
    testAuthority.lookup ["_ldap", "_tcp", "service", "isi", "edu"] .SRV =
      [⟨["_ldap", "_tcp", "service", "isi", "edu"], .SRV, .IN, 60,
        .srv 1 2 3 ["short", "isi", "edu"]⟩] := by
  refine ⟨?_, ?_⟩
  · rw [zone_parse_eq]
    rfl
  · rw [testAuthority_eq]
    rfl

/-- C4: in the loaded test zone, the TXT value given as the two quoted
strings `"I am a different" "txt record"` parses to exactly that ordered
two-element character-string sequence, while the unquoted multi-word TXT
values parse to one character-string per whitespace-separated word. -/
theorem zone_txt_tokenization :
    (Parser.parse zoneText testOrigin).isOk = true ∧
    (testAuthority.lookup ["a", "isi", "edu"] .TXT).map Record.rdata =
      [.txt ["I", "am", "a", "txt", "record"],
       .txt ["I", "am", "another", "txt", "record"],
       .txt ["I am a different", "txt record"],
       .txt ["key=val"]] := by
  refine ⟨?_, ?_⟩
  · rw [zone_parse_eq]
    rfl
  · rw [testAuthority_eq]
    rfl

/-- C7: on the Authority loaded with the test zone, `soa()` succeeds and
returns the unique SOA record (record type SOA, name equal to the
origin); on an Authority with no loaded SOA it fails with the
`NotAuthoritative` condition. -/
theorem authority_soa_contract :
    (∃ r, testAuthority.soa = .ok r ∧ r.rrType = .SOA ∧ r.name = testOrigin) ∧
    Authority.soa ⟨testOrigin, []⟩ = .error .notAuthoritative := by
  refine ⟨⟨⟨["isi", "edu"], .SOA, .IN, 3600000,
           .soa ⟨["venera", "isi", "edu"], ["action.domains", "isi", "edu"],
                 20, 7200, 600, 3600000, 60⟩⟩, ?_, rfl, rfl⟩, rfl⟩
  rw [testAuthority_eq]
  rfl

/-- C8: the SOA record line — whose rdata spans multiple lines inside
parentheses, with `;` comments after each numeric field and a `\.` escape
inside the rname — lexes and parses to SOA fields serial 20, refresh
7200, retry 600, expire 3600000, minimum 60, with the rname's first label
being the literal string `action.domains` (the escaped dot collapsed into
the label, not a label separator). -/
theorem zone_lexer_soa_fields :
    (Parser.parse zoneText testOrigin).isOk = true ∧
    (∃ r, testAuthority.soa = .ok r ∧
      r.rdata = .soa ⟨["venera", "isi", "edu"], ["action.domains", "isi", "edu"],
                      20, 7200, 600, 3600000, 60⟩ ∧
      r.rdata.soaRname.head? = some "action.domains") := by
  refine ⟨?_, ⟨⟨["isi", "edu"], .SOA, .IN, 3600000,
              .soa ⟨["venera", "isi", "edu"], ["action.domains", "isi", "edu"],
                    20, 7200, 600, 3600000, 60⟩⟩, ?_, rfl, rfl⟩⟩
  · rw [zone_parse_eq]
    rfl
  · rw [testAuthority_eq]
    rfl

/-- C10: the SOA record's own TTL is not taken from the zone's default
TTL (the SOA minimum): in the loaded test zone `soa()` returns a record
with TTL 3600000 (the expire value), while records without an explicit
TTL — the A record at `a.isi.edu` and the NS records at the origin —
receive TTL 60. -/
theorem zone_soa_ttl_from_expire :
    (Parser.parse zoneText testOrigin).isOk = true ∧
    testAuthority.soa.map Record.ttl = .ok 3600000 ∧
    (testAuthority.lookup ["a", "isi", "edu"] .A).map Record.ttl = [60] ∧
    (testAuthority.lookup ["isi", "edu"] .NS).map Record.ttl = [60, 60, 60] := by
  refine ⟨?_, ?_, ?_, ?_⟩ <;>
    first
      | (rw [zone_parse_eq]; rfl)
      | (rw [testAuthority_eq]; rfl)

end TrustDns
